import Mathlib

/-!
Shallow embedding of the Flask application in `flask-app/app.py`.

The program defines a single route `/` accepting GET and POST.  The
handler `home` logs the request method and path, logs the header mapping
converted to a plain Python dict, logs the body decoded as text when the
method is POST, and returns the constant JSON object
`\x7b"message": "Hello from Flask!"\x7d` with status 200.

Requests are modelled as a method string, a path string, a header
multimap (list of name/value pairs in arrival order) and a raw body
(list of byte values).  Log output is modelled as the list of log
message strings emitted by the handler, in order.
-/

/-- An incoming HTTP request as seen by the handler: method, path,
header multimap and raw body bytes. -/
structure Request where
  method : String
  path : String
  headers : List (String × String)
  body : List Nat
deriving DecidableEq

/-- The value returned by the handler: the JSON object (as a list of
key/value pairs, mirroring the Python dict literal) and the status. -/
structure HttpResponse where
  body : List (String × String)
  status : Nat
deriving DecidableEq

/-- Python semantics of `dict(request.headers)`: one entry per header
name; for a repeated name the mapping protocol stores the value of the
first occurrence (`Headers.__getitem__` returns the first matching
value), and keys keep first-occurrence order. -/
def dictOf : List (String × String) → List (String × String)
  | [] => []
  | kv :: rest => kv :: (dictOf rest).filter (fun p => p.1 != kv.1)

/-- A single quote character, as used by Python `repr` of a dict. -/
def pyQuote : String := String.singleton '\x27'

/-- One `key: value` entry of the Python `repr` of a string dict. -/
def reprEntry (kv : String × String) : String :=
  pyQuote ++ kv.1 ++ pyQuote ++ ": " ++ pyQuote ++ kv.2 ++ pyQuote

/-- The comma-separated entry list of the Python `repr` of a dict. -/
def reprEntries : List (String × String) → String
  | [] => ""
  | [kv] => reprEntry kv
  | kv :: rest => reprEntry kv ++ ", " ++ reprEntries rest

/-- Python `repr` of a dict of strings, as interpolated by
`logging.info("Headers: %s", dict(request.headers))`. -/
def pyReprStrDict (d : List (String × String)) : String :=
  "\x7b" ++ reprEntries d ++ "\x7d"

/-- JSON rendering of the handler return value, as produced by Flask
for a dict return. -/
def renderJson (obj : List (String × String)) : String :=
  "\x7b" ++ String.intercalate ", "
      (obj.map (fun kv => "\"" ++ kv.1 ++ "\": \"" ++ kv.2 ++ "\"")) ++ "\x7d"

/-- The Unicode replacement character emitted for undecodable bytes. -/
def replChar : Char := '�'

/-- Is the byte a UTF-8 continuation byte. -/
def isCont (b : Nat) : Bool := 0x80 ≤ b && b ≤ 0xBF

/-- Valid first continuation byte of a three-byte sequence with lead
`b` (excludes overlong encodings and surrogates, as CPython does). -/
def isCont3 (b c : Nat) : Bool :=
  if b = 0xE0 then 0xA0 ≤ c && c ≤ 0xBF
  else if b = 0xED then 0x80 ≤ c && c ≤ 0x9F
  else isCont c

/-- Valid first continuation byte of a four-byte sequence with lead
`b` (excludes overlong encodings and planes above U+10FFFF). -/
def isCont4 (b c : Nat) : Bool :=
  if b = 0xF0 then 0x90 ≤ c && c ≤ 0xBF
  else if b = 0xF4 then 0x80 ≤ c && c ≤ 0x8F
  else isCont c

/-- UTF-8 decoding with `errors = "replace"`: on an invalid or
truncated sequence a replacement character is emitted and decoding
resumes at the offending byte.  `fuel` bounds the recursion; every step
consumes at least one byte, so `fuel = length` suffices. -/
def decodeLoop : Nat → List Nat → List Char
  | 0, _ => []
  | _ + 1, [] => []
  | fuel + 1, b :: rest =>
    if b < 0x80 then
      Char.ofNat b :: decodeLoop fuel rest
    else if 0xC2 ≤ b && b ≤ 0xDF then
      match rest with
      | [] => [replChar]
      | c1 :: rest1 =>
        if isCont c1 then
          Char.ofNat ((b - 0xC0) * 0x40 + (c1 - 0x80)) :: decodeLoop fuel rest1
        else replChar :: decodeLoop fuel rest
    else if 0xE0 ≤ b && b ≤ 0xEF then
      match rest with
      | [] => [replChar]
      | c1 :: rest1 =>
        if isCont3 b c1 then
          match rest1 with
          | [] => [replChar]
          | c2 :: rest2 =>
            if isCont c2 then
              Char.ofNat ((b - 0xE0) * 0x1000 + (c1 - 0x80) * 0x40 + (c2 - 0x80))
                :: decodeLoop fuel rest2
            else replChar :: decodeLoop fuel rest1
        else replChar :: decodeLoop fuel rest
    else if 0xF0 ≤ b && b ≤ 0xF4 then
      match rest with
      | [] => [replChar]
      | c1 :: rest1 =>
        if isCont4 b c1 then
          match rest1 with
          | [] => [replChar]
          | c2 :: rest2 =>
            if isCont c2 then
              match rest2 with
              | [] => [replChar]
              | c3 :: rest3 =>
                if isCont c3 then
                  Char.ofNat ((b - 0xF0) * 0x40000 + (c1 - 0x80) * 0x1000
                      + (c2 - 0x80) * 0x40 + (c3 - 0x80)) :: decodeLoop fuel rest3
                else replChar :: decodeLoop fuel rest2
            else replChar :: decodeLoop fuel rest1
        else replChar :: decodeLoop fuel rest
    else
      replChar :: decodeLoop fuel rest

/-- `request.get_data(as_text=True)`: the raw body bytes decoded as
UTF-8 text with replacement of invalid sequences. -/
def getDataAsText (body : List Nat) : String :=
  String.mk (decodeLoop body.length body)

/-- The handler `home` of `app.py`: logs method and path, logs the
headers converted to a dict, logs the decoded body when the method is
POST, and returns the constant dict with status 200.  The first
component is the emitted log output, in order. -/
def home (req : Request) : List String × HttpResponse :=
  let line1 := "Incoming request: " ++ req.method ++ " " ++ req.path
  let line2 := "Headers: " ++ pyReprStrDict (dictOf req.headers)
  let logs := if req.method = "POST"
    then [line1, line2, "Payload: " ++ getDataAsText req.body]
    else [line1, line2]
  (logs, { body := [("message", "Hello from Flask!")], status := 200 })

/-- The method list registered on the route decorator. -/
def routeMethods : List String := ["GET", "POST"]

/-- Outcome of routing a request: either the handler ran, producing
its log output and response, or the routing layer rejected the request
with an error status. -/
inductive DispatchOutcome where
  | handled : List String → HttpResponse → DispatchOutcome
  | rejected : Nat → DispatchOutcome
deriving DecidableEq

/-- Modelled from the spec: the HTTP routing layer is framework code
not present in the repository sources.  Per the spec, requests to the
registered route with a method outside the registered method list are
rejected with the default status 405 and the handler is not invoked;
requests to unknown paths get 404. -/
def dispatch (req : Request) : DispatchOutcome :=
  if req.path = "/" then
    if req.method ∈ routeMethods then
      DispatchOutcome.handled (home req).1 (home req).2
    else DispatchOutcome.rejected 405
  else DispatchOutcome.rejected 404

/-- The HTTP status of a dispatch outcome. -/
def statusOf : DispatchOutcome → Nat
  | DispatchOutcome.handled _ r => r.status
  | DispatchOutcome.rejected s => s

/-- Substring containment: the character sequence of `pat` occurs
contiguously inside `s`. -/
def strContains (s pat : String) : Prop := pat.data <:+: s.data

instance (s pat : String) : Decidable (strContains s pat) :=
  List.decidableInfix pat.data s.data

/-- The process state observed by the handler: only the log stream.
The handler reads and writes nothing else. -/
structure ServerState where
  logStream : List String
deriving DecidableEq

/-- One request/response cycle: the handler runs on the request, its
log lines are appended to the log stream, and its response is sent. -/
def handleRequest (s : ServerState) (req : Request) : ServerState × HttpResponse :=
  ({ logStream := s.logStream ++ (home req).1 }, (home req).2)

/-- The fixed JSON acknowledgement body of every response. -/
def fixedJsonBody : String := "\x7b\"message\": \"Hello from Flask!\"\x7d"

/-- Modelled from the spec: one step of the environ header
construction of the framework HTTP server, which is not part of the
repository sources.  A wire header is merged into the header mapping:
a repeated name has its value appended to the existing entry after a
comma, a new name is appended as a new entry. -/
def addHeader (env : List (String × String)) (kv : String × String) :
    List (String × String) :=
  if env.any (fun p => p.1 == kv.1) then
    env.map (fun p => if p.1 == kv.1 then (p.1, p.2 ++ "," ++ kv.2) else p)
  else env ++ [kv]

/-- Modelled from the spec: the layer building the request object is
framework code absent from the repository sources.  The request
presents its headers as a mapping (spec section 3): the environ is a
dict keyed by header name, so repeated wire headers of one name reach
the handler as a single entry whose value is the comma-join of the
wire values, in first-occurrence order. -/
def environHeaders (wire : List (String × String)) : List (String × String) :=
  wire.foldl addHeader []

/-! ### Helper lemmas -/

theorem strContains_of_split (s a pat b : String) (h : s = a ++ pat ++ b) :
    strContains s pat := by
  subst h
  exact ⟨a.data, b.data, by simp [String.data_append, List.append_assoc]⟩

theorem strContains_append_left (a b pat : String) (h : strContains a pat) :
    strContains (a ++ b) pat := by
  obtain ⟨s, t, hst⟩ := h
  exact ⟨s, t ++ b.data, by rw [String.data_append, ← hst]; simp [List.append_assoc]⟩

theorem strContains_append_right (a b pat : String) (h : strContains b pat) :
    strContains (a ++ b) pat := by
  obtain ⟨s, t, hst⟩ := h
  exact ⟨a.data ++ s, t, by rw [String.data_append, ← hst]; simp [List.append_assoc]⟩

theorem reprEntry_contains_key (kv : String × String) :
    strContains (reprEntry kv) kv.1 := by
  refine ⟨pyQuote.data, (pyQuote ++ ": " ++ pyQuote ++ kv.2 ++ pyQuote).data, ?_⟩
  simp [reprEntry, String.data_append, List.append_assoc]

theorem reprEntry_contains_val (kv : String × String) :
    strContains (reprEntry kv) kv.2 := by
  refine ⟨(pyQuote ++ kv.1 ++ pyQuote ++ ": " ++ pyQuote).data, pyQuote.data, ?_⟩
  simp [reprEntry, String.data_append, List.append_assoc]

theorem reprEntries_contains (d : List (String × String)) (kv : String × String)
    (h : kv ∈ d) : strContains (reprEntries d) kv.1 ∧ strContains (reprEntries d) kv.2 := by
  induction d with
  | nil => simp at h
  | cons a rest ih =>
    cases rest with
    | nil =>
      have : kv = a := by simpa using h
      subst this
      exact ⟨reprEntry_contains_key kv, reprEntry_contains_val kv⟩
    | cons b rest2 =>
      rcases List.mem_cons.mp h with he | ht
      · subst he
        have hs : reprEntries (kv :: b :: rest2)
            = reprEntry kv ++ (", " ++ reprEntries (b :: rest2)) := by
          simp [reprEntries, String.append_assoc]
        rw [hs]
        exact ⟨strContains_append_left _ _ _ (reprEntry_contains_key kv),
               strContains_append_left _ _ _ (reprEntry_contains_val kv)⟩
      · have hr := ih ht
        have hs : reprEntries (a :: b :: rest2)
            = reprEntry a ++ ", " ++ reprEntries (b :: rest2) := by
          simp [reprEntries]
        rw [hs]
        exact ⟨strContains_append_right _ _ _ hr.1, strContains_append_right _ _ _ hr.2⟩

theorem strContains_trans (s mid pat : String) (h1 : strContains s mid)
    (h2 : strContains mid pat) : strContains s pat :=
  List.IsInfix.trans h2 h1

theorem strContains_refl (s : String) : strContains s s :=
  List.infix_refl s.data

theorem mem_dictOf_of_pairwise (l : List (String × String))
    (hl : l.Pairwise (fun a b => a.1 ≠ b.1)) (kv : String × String)
    (h : kv ∈ l) : kv ∈ dictOf l := by
  induction l with
  | nil => simp at h
  | cons a rest ih =>
    rw [List.pairwise_cons] at hl
    rcases List.mem_cons.mp h with he | ht
    · subst he
      simp [dictOf]
    · have hmem := ih hl.2 ht
      have hne : (kv.1 != a.1) = true :=
        bne_iff_ne.mpr (Ne.symm (hl.1 kv ht))
      simp only [dictOf, List.mem_cons, List.mem_filter]
      exact Or.inr ⟨hmem, hne⟩

theorem addHeader_mem_self (env : List (String × String)) (k v : String) :
    ∃ w, (k, w) ∈ addHeader env (k, v) ∧ strContains w v := by
  unfold addHeader
  by_cases ha : env.any (fun p => p.1 == k) = true
  · rw [if_pos ha]
    obtain ⟨p, hp, hpk⟩ := List.any_eq_true.mp ha
    have hk : p.1 = k := by simpa using hpk
    refine ⟨p.2 ++ "," ++ v, ?_, ?_⟩
    · have hf : (fun q : String × String =>
          if q.1 == k then (q.1, q.2 ++ "," ++ v) else q) p = (k, p.2 ++ "," ++ v) := by
        simp [hpk, hk]
      exact hf ▸ List.mem_map_of_mem _ hp
    · exact strContains_append_right _ _ _ (strContains_refl v)
  · rw [if_neg ha]
    exact ⟨v, List.mem_append_right _ (by simp), strContains_refl v⟩

theorem addHeader_mem_mono (env : List (String × String)) (kv : String × String)
    (k v : String) (h : ∃ w, (k, w) ∈ env ∧ strContains w v) :
    ∃ w, (k, w) ∈ addHeader env kv ∧ strContains w v := by
  obtain ⟨w, hw, hc⟩ := h
  unfold addHeader
  by_cases ha : env.any (fun p => p.1 == kv.1) = true
  · rw [if_pos ha]
    by_cases hk : (k == kv.1) = true
    · refine ⟨w ++ "," ++ kv.2, ?_,
        strContains_append_left _ _ _ (strContains_append_left _ _ _ hc)⟩
      have hf : (fun q : String × String =>
          if q.1 == kv.1 then (q.1, q.2 ++ "," ++ kv.2) else q) (k, w)
          = (k, w ++ "," ++ kv.2) := by simp [hk]
      exact hf ▸ List.mem_map_of_mem _ hw
    · refine ⟨w, ?_, hc⟩
      have hf : (fun q : String × String =>
          if q.1 == kv.1 then (q.1, q.2 ++ "," ++ kv.2) else q) (k, w) = (k, w) := by
        simp [hk]
      exact hf ▸ List.mem_map_of_mem _ hw
  · rw [if_neg ha]
    exact ⟨w, List.mem_append_left _ hw, hc⟩

theorem foldl_addHeader_contains (wire : List (String × String)) :
    ∀ (env : List (String × String)) (k v : String),
    ((k, v) ∈ wire ∨ ∃ w, (k, w) ∈ env ∧ strContains w v) →
    ∃ w, (k, w) ∈ wire.foldl addHeader env ∧ strContains w v := by
  induction wire with
  | nil =>
    intro env k v h
    rcases h with h | h
    · simp at h
    · simpa using h
  | cons kv rest ih =>
    intro env k v h
    rw [List.foldl_cons]
    rcases h with h | h
    · rcases List.mem_cons.mp h with he | ht
      · subst he
        exact ih _ k v (Or.inr (addHeader_mem_self env k v))
      · exact ih _ k v (Or.inl ht)
    · exact ih _ k v (Or.inr (addHeader_mem_mono env kv k v h))

theorem addHeader_pairwise (env : List (String × String)) (kv : String × String)
    (h : env.Pairwise (fun a b => a.1 ≠ b.1)) :
    (addHeader env kv).Pairwise (fun a b => a.1 ≠ b.1) := by
  unfold addHeader
  by_cases ha : env.any (fun p => p.1 == kv.1) = true
  · rw [if_pos ha]
    rw [List.pairwise_map]
    have hf : ∀ p : String × String,
        ((if p.1 == kv.1 then (p.1, p.2 ++ "," ++ kv.2) else p)).1 = p.1 := by
      intro p
      by_cases hp : (p.1 == kv.1) = true <;> simp [hp]
    refine List.Pairwise.imp ?_ h
    intro a b hab
    simpa only [hf] using hab
  · rw [if_neg ha]
    rw [List.pairwise_append]
    refine ⟨h, List.pairwise_singleton _ _, ?_⟩
    intro a ha' b hb
    have hb' : b = kv := by simpa using hb
    subst hb'
    intro he
    exact ha (List.any_eq_true.mpr ⟨a, ha', by simp [he]⟩)

theorem foldl_addHeader_pairwise (wire : List (String × String)) :
    ∀ env : List (String × String), env.Pairwise (fun a b => a.1 ≠ b.1) →
    (wire.foldl addHeader env).Pairwise (fun a b => a.1 ≠ b.1) := by
  induction wire with
  | nil =>
    intro env h
    simpa using h
  | cons kv rest ih =>
    intro env h
    rw [List.foldl_cons]
    exact ih _ (addHeader_pairwise env kv h)

theorem environHeaders_pairwise (wire : List (String × String)) :
    (environHeaders wire).Pairwise (fun a b => a.1 ≠ b.1) :=
  foldl_addHeader_pairwise wire [] (by simp)

theorem environHeaders_contains (wire : List (String × String)) (k v : String)
    (h : (k, v) ∈ wire) :
    ∃ w, (k, w) ∈ environHeaders wire ∧ strContains w v :=
  foldl_addHeader_contains wire [] k v (Or.inl h)

theorem headersLine_contains (d : List (String × String)) (pat : String)
    (h : strContains (reprEntries d) pat) :
    strContains ("Headers: " ++ pyReprStrDict d) pat :=
  strContains_append_right _ _ _
    (show strContains ("\x7b" ++ reprEntries d ++ "\x7d") pat from
      strContains_append_left _ _ _ (strContains_append_right _ _ _ h))

theorem dictOf_key_count (hs : List (String × String)) (name : String) :
    ((dictOf hs).filter (fun p => p.1 == name)).length ≤ 1 := by
  induction hs with
  | nil => simp [dictOf]
  | cons kv rest ih =>
    by_cases hk : (kv.1 == name) = true
    · have hnil : ((dictOf rest).filter (fun p => p.1 != kv.1)).filter
          (fun p => p.1 == name) = [] := by
        rw [List.filter_eq_nil_iff]
        intro a ha
        have hane : (a.1 != kv.1) = true := (List.mem_filter.mp ha).2
        have : a.1 ≠ name := by
          have hkv : kv.1 = name := by simpa using hk
          have := bne_iff_ne.mp hane
          simpa [hkv] using this
        simp [this]
      simp [dictOf, List.filter_cons, hk, hnil]
    · have hsub : (((dictOf rest).filter (fun p => p.1 != kv.1)).filter
          (fun p => p.1 == name)).length
          ≤ ((dictOf rest).filter (fun p => p.1 == name)).length :=
        List.Sublist.length_le (List.Sublist.filter _ (List.filter_sublist _))
      calc ((dictOf (kv :: rest)).filter (fun p => p.1 == name)).length
          = (((dictOf rest).filter (fun p => p.1 != kv.1)).filter
              (fun p => p.1 == name)).length := by
            simp [dictOf, List.filter_cons, hk]
        _ ≤ _ := le_trans hsub ih

/-! ### Claim theorems -/

/-- Claim C1: for every GET request to the route `/` (any headers, any
body), the handler returns status 200 and the JSON body
`\x7b"message": "Hello from Flask!"\x7d`. -/
theorem home_get_ok (hs : List (String × String)) (b : List Nat) :
    (home ⟨"GET", "/", hs, b⟩).2.status = 200 ∧
    renderJson (home ⟨"GET", "/", hs, b⟩).2.body = fixedJsonBody :=
  ⟨rfl, rfl⟩

/-- Claim C2: for every POST request to `/` with body `test-payload`
(any headers), the response has status 200 and is the same response a
GET request gets, and some emitted log line contains the substring
`test-payload`. -/
theorem home_post_test_payload (hs : List (String × String)) :
    (home ⟨"POST", "/", hs, "test-payload".data.map Char.toNat⟩).2.status = 200 ∧
    (home ⟨"POST", "/", hs, "test-payload".data.map Char.toNat⟩).2
      = (home ⟨"GET", "/", hs, []⟩).2 ∧
    ∃ line ∈ (home ⟨"POST", "/", hs, "test-payload".data.map Char.toNat⟩).1,
      strContains line "test-payload" := by
  refine ⟨rfl, rfl,
    ⟨"Payload: " ++ getDataAsText ("test-payload".data.map Char.toNat), ?_, ?_⟩⟩
  · simp [home]
  · decide

/-- Claim C3: for every request the handler processes (any method,
path, headers, body), some emitted log line contains both the request
method and the request path. -/
theorem home_logs_method_and_path (req : Request) :
    ∃ line ∈ (home req).1, strContains line req.method ∧ strContains line req.path := by
  refine ⟨"Incoming request: " ++ req.method ++ " " ++ req.path, ?_, ?_, ?_⟩
  · by_cases h : req.method = "POST" <;> simp [home, h]
  · exact ⟨"Incoming request: ".data, " ".data ++ req.path.data,
      by simp [String.data_append, List.append_assoc]⟩
  · exact ⟨"Incoming request: ".data ++ req.method.data ++ " ".data, [],
      by simp [String.data_append, List.append_assoc]⟩

/-- Claim C4: for every handled request that carries the wire header
`X-Test: value` (any method, path, body, and any other wire headers),
the logged output contains `X-Test` and contains `value`.  The header
mapping the handler sees is built by the environ construction, which
comma-joins repeated wire headers of one name into a single entry, so
the logged value of `X-Test` always has `value` as a substring. -/
theorem home_logs_xtest_header (method path : String)
    (wire : List (String × String)) (body : List Nat)
    (h : ("X-Test", "value") ∈ wire) :
    (∃ line ∈ (home ⟨method, path, environHeaders wire, body⟩).1,
       strContains line "X-Test") ∧
    (∃ line ∈ (home ⟨method, path, environHeaders wire, body⟩).1,
       strContains line "value") := by
  obtain ⟨w, hw, hcw⟩ := environHeaders_contains wire "X-Test" "value" h
  have hd : (("X-Test" : String), w) ∈ dictOf (environHeaders wire) :=
    mem_dictOf_of_pairwise _ (environHeaders_pairwise wire) _ hw
  have hc := reprEntries_contains (dictOf (environHeaders wire)) ("X-Test", w) hd
  have hmem : ("Headers: " ++ pyReprStrDict (dictOf (environHeaders wire)))
      ∈ (home ⟨method, path, environHeaders wire, body⟩).1 := by
    by_cases hm : method = "POST" <;> simp [home, hm]
  exact ⟨⟨_, hmem, headersLine_contains _ _ hc.1⟩,
         ⟨_, hmem, strContains_trans _ _ _ (headersLine_contains _ _ hc.2) hcw⟩⟩

/-- Claim C4 witness: a wire request carrying `X-Test: other` and then
`X-Test: value` reaches the handler as the single comma-joined entry
`X-Test: other,value`, and the logged output contains both `X-Test`
and `value`. -/
theorem home_logs_xtest_header_witness :
    ((("X-Test" : String), ("value" : String))
        ∈ [("X-Test", "other"), ("X-Test", "value")]) ∧
    ((∃ line ∈ (home ⟨"GET", "/",
        environHeaders [("X-Test", "other"), ("X-Test", "value")], []⟩).1,
       strContains line "X-Test") ∧
     (∃ line ∈ (home ⟨"GET", "/",
        environHeaders [("X-Test", "other"), ("X-Test", "value")], []⟩).1,
       strContains line "value")) :=
  ⟨by decide, home_logs_xtest_header "GET" "/"
    [("X-Test", "other"), ("X-Test", "value")] [] (by decide)⟩

/-- Claim C5: the handler emits exactly this log sequence: the
method-and-path line, then the header-mapping line, and then a payload
line exactly when the method is POST; for any other method (such as
GET) only the first two lines are emitted. -/
theorem home_log_sequence (req : Request) :
    (home req).1 =
      if req.method = "POST" then
        ["Incoming request: " ++ req.method ++ " " ++ req.path,
         "Headers: " ++ pyReprStrDict (dictOf req.headers),
         "Payload: " ++ getDataAsText req.body]
      else
        ["Incoming request: " ++ req.method ++ " " ++ req.path,
         "Headers: " ++ pyReprStrDict (dictOf req.headers)] := by
  by_cases h : req.method = "POST" <;> simp [home, h]

/-- Claim C6: a request to `/` whose method is outside the registered
list GET, POST is rejected by the routing layer with status 405; the
handler is never invoked and the status is not 200. -/
theorem dispatch_unsupported_method (req : Request)
    (hp : req.path = "/") (hm : req.method ∉ routeMethods) :
    dispatch req = DispatchOutcome.rejected 405 ∧
    (∀ logs resp, dispatch req ≠ DispatchOutcome.handled logs resp) ∧
    statusOf (dispatch req) ≠ 200 := by
  have hd : dispatch req = DispatchOutcome.rejected 405 := by
    simp [dispatch, hp, hm]
  refine ⟨hd, ?_, ?_⟩
  · intro logs resp
    simp [hd]
  · simp [hd, statusOf]

/-- Claim C6 witness: a DELETE request to `/` is concretely rejected
with 405. -/
theorem dispatch_unsupported_method_witness :
    (("DELETE" : String) ∉ routeMethods) ∧
    (dispatch (Request.mk "DELETE" "/" [] []) = DispatchOutcome.rejected 405 ∧
     (∀ logs resp,
        dispatch (Request.mk "DELETE" "/" [] []) ≠ DispatchOutcome.handled logs resp) ∧
     statusOf (dispatch (Request.mk "DELETE" "/" [] [])) ≠ 200) :=
  ⟨by decide, dispatch_unsupported_method (Request.mk "DELETE" "/" [] []) rfl (by decide)⟩

/-- Claim C7: for every POST request whose body is an arbitrary byte
sequence (each byte below 256, valid text or not), the handler returns
status 200 with the fixed JSON body, and the log output has a payload
line carrying the best-effort decoding of the body. -/
theorem home_post_arbitrary_body (hs : List (String × String)) (body : List Nat)
    (_h : ∀ b ∈ body, b < 256) :
    (home ⟨"POST", "/", hs, body⟩).2.status = 200 ∧
    renderJson (home ⟨"POST", "/", hs, body⟩).2.body = fixedJsonBody ∧
    ("Payload: " ++ getDataAsText body) ∈ (home ⟨"POST", "/", hs, body⟩).1 := by
  refine ⟨rfl, rfl, ?_⟩
  simp [home]

/-- Claim C7 witness: a body containing the invalid byte 0xFF is
decoded with a replacement character and still answered with 200. -/
theorem home_post_arbitrary_body_witness :
    (∀ b ∈ [0xFF, 0x41], b < 256) ∧
    ((home ⟨"POST", "/", [], [0xFF, 0x41]⟩).2.status = 200 ∧
     renderJson (home ⟨"POST", "/", [], [0xFF, 0x41]⟩).2.body = fixedJsonBody ∧
     ("Payload: " ++ getDataAsText [0xFF, 0x41]) ∈ (home ⟨"POST", "/", [], [0xFF, 0x41]⟩).1) :=
  ⟨by decide, home_post_arbitrary_body [] [0xFF, 0x41] (by decide)⟩

/-- Claim C8: the response is a fixed acknowledgement: any two
requests, whatever their method, path, headers and body, receive the
identical status and JSON body. -/
theorem home_response_const (r1 r2 : Request) : (home r1).2 = (home r2).2 := rfl

/-- Claim C9: one request/response cycle only appends the handler log
lines to the log stream: the response is independent of the prior
state, the new log stream is the old one with the handler lines
appended (so the old stream is preserved as a prefix), and the
appended lines themselves do not depend on the prior state. -/
theorem handleRequest_frame (s t : ServerState) (req : Request) :
    (handleRequest s req).2 = (handleRequest t req).2 ∧
    (handleRequest s req).1.logStream = s.logStream ++ (home req).1 ∧
    s.logStream <+: (handleRequest s req).1.logStream :=
  ⟨rfl, rfl, (home req).1, rfl⟩

/-- Claim C10: the logged header mapping is the dict conversion of the
header multimap, which keeps at most one entry per header name; the
header log line of every handled request uses this collapsed dict. -/
theorem home_headers_dict_collapses (req : Request) (name : String) :
    ((dictOf req.headers).filter (fun p => p.1 == name)).length ≤ 1 ∧
    ("Headers: " ++ pyReprStrDict (dictOf req.headers)) ∈ (home req).1 := by
  refine ⟨dictOf_key_count req.headers name, ?_⟩
  by_cases h : req.method = "POST" <;> simp [home, h]
